import Mathlib

set_option linter.unusedVariables false

/-!
Shallow embedding of the vscode-kanbn board core: the webview query engine
(`filterTask`), selection logic (`handleTaskSelect`), multi-drag handler
(`onDragEnd`, multi-selection branch), and the extension-host panel logic
(`update` refresh sequencing, `handleRecurrence`, and the `kanbn.bulkMove` /
`kanbn.bulkArchive` message handlers).

Conventions of the embedding:
* JavaScript `Date` values are modelled as proleptic-Gregorian calendar dates
  (year, 0-based month, day) in a fixed time zone; instants are encoded as
  milliseconds via a days-from-civil day number.  `new Date(y, m, d)`
  normalisation (month and day overflow/underflow) is modelled by `mkDate`.
* Store-adapter failures are error messages (`Except String`); the source's
  `error instanceof Error` guard is always taken, matching the adapter's
  documented failure mode.
* Generic ECMAScript date-string parsing (the `new Date(string)` fallback in
  the webview's `parseDate`) is abstracted as a parameter `jsParse`.
-/

/-! ## JavaScript calendar dates -/

/-- A normalised calendar date as held by a JS `Date`: `month` is 0-based
(0 = January), `day` is 1-based. -/
structure CalDate where
  year : Int
  month : Int
  day : Int
deriving DecidableEq, Repr

/-- Day number of a civil date (0-based month `m0`, arbitrary day offset `d`),
with day 0 = 1970-01-01.  The day argument may lie outside the month; the
formula is linear in `d`, matching JS `Date` day arithmetic. -/
def daysFromCivil0 (y : Int) (m0 : Int) (d : Int) : Int :=
  let m := m0 + 1
  let yy := if m ≤ 2 then y - 1 else y
  let era := yy.fdiv 400
  let yoe := yy - era * 400
  let mp := (m + 9).emod 12
  let doy := (153 * mp + 2).fdiv 5 + d - 1
  let doe := yoe * 365 + yoe.fdiv 4 - yoe.fdiv 100 + doy
  era * 146097 + doe - 719468

/-- Inverse of `daysFromCivil0`: the civil date of a day number. -/
def civilFromDays (z0 : Int) : CalDate :=
  let z := z0 + 719468
  let era := z.fdiv 146097
  let doe := z - era * 146097
  let yoe := (doe - doe.fdiv 1460 + doe.fdiv 36524 - doe.fdiv 146096).fdiv 365
  let y := yoe + era * 400
  let doy := doe - (yoe * 365 + yoe.fdiv 4 - yoe.fdiv 100)
  let mp := (5 * doy + 2).fdiv 153
  let d := doy - (153 * mp + 2).fdiv 5 + 1
  let m := if mp < 10 then mp + 3 else mp - 9
  { year := if m ≤ 2 then y + 1 else y, month := m - 1, day := d }

/-- JS `new Date(y, m, d)`: the month is folded into the year and the day is
normalised across month boundaries (day 0 is the last day of the previous
month, day overflow rolls forward). -/
def mkDate (y m d : Int) : CalDate :=
  let ym := y + m.fdiv 12
  let mn := m - 12 * m.fdiv 12
  civilFromDays (daysFromCivil0 ym mn d)

/-- Milliseconds-since-epoch encoding of a calendar date at local midnight,
the value compared by `Date.prototype.getTime`. -/
def dateCode (cd : CalDate) : Int :=
  daysFromCivil0 cd.year cd.month cd.day * 86400000

example : daysFromCivil0 1970 0 1 = 0 := by decide
example : civilFromDays 0 = { year := 1970, month := 0, day := 1 } := by decide
example : mkDate 2025 1 31 = { year := 2025, month := 2, day := 3 } := by decide
example : mkDate 2025 3 0 = { year := 2025, month := 2, day := 31 } := by decide
example : mkDate 2024 1 29 = { year := 2024, month := 1, day := 29 } := by decide
example : mkDate 2025 0 (1 + 3) = { year := 2025, month := 0, day := 4 } := by decide

/-! ## Webview data model (the shape of tasks received by the board view) -/

/-- A value stored under a key of a task's metadata object.  `null` stands for
a key present with a JS `null`/`undefined` value; absent keys have no entry in
the association list at all. -/
inductive MetaValue where
  | null : MetaValue
  | bool (b : Bool) : MetaValue
  | num (n : Int) : MetaValue
  | str (s : String) : MetaValue
  | strs (l : List String) : MetaValue
deriving DecidableEq, Repr

/-- A task metadata object: an association list from key to value, mixing the
fixed keys (due, tags, assigned, ...) and custom-field keys, exactly as the
loosely-typed JS metadata object does. -/
abbrev Metadata : Type := List (String × MetaValue)

/-- JS property read `metadata[key]`: `none` when the key is absent. -/
def metaLookup (m : Metadata) (k : String) : Option MetaValue :=
  (m.find? (fun p => p.1 = k)).map (fun p => p.2)

/-- JS string coercion of a stored metadata value (template-literal
stringification). -/
def metaToString (v : MetaValue) : String :=
  match v with
  | MetaValue.null => "null"
  | MetaValue.bool b => if b then "true" else "false"
  | MetaValue.num n => toString n
  | MetaValue.str s => s
  | MetaValue.strs l => String.intercalate "," l

structure SubTask where
  text : String
  completed : Bool
deriving DecidableEq, Repr

structure Relation where
  type : String
  task : String
deriving DecidableEq, Repr

structure Comment where
  author : String
  text : String
deriving DecidableEq, Repr

/-- A hydrated task as seen by the board webview. -/
structure WTask where
  id : String
  name : String
  description : String
  subTasks : List SubTask
  relations : List Relation
  comments : List Comment
  metadata : Metadata
deriving DecidableEq, Repr

/-- Custom-field type tag from the board options. -/
inductive FieldType where
  | boolean : FieldType
  | date : FieldType
  | number : FieldType
  | string : FieldType
deriving DecidableEq, Repr

structure CustomField where
  name : String
  type : FieldType
deriving DecidableEq, Repr

/-! ## Character-list string primitives (JS string operations) -/

/-- JS `String.prototype.toLowerCase` on a character list. -/
def lowerL (l : List Char) : List Char := l.map Char.toLower

/-- Does the first list occur as a prefix of the second. -/
def startsWithL : List Char → List Char → Bool
  | [], _ => true
  | _ :: _, [] => false
  | a :: as, b :: bs => a = b && startsWithL as bs

/-- JS `String.prototype.includes`: `needle` occurs contiguously in the
haystack (the empty needle always occurs). -/
def containsL (needle : List Char) : List Char → Bool
  | [] => startsWithL needle []
  | c :: t => startsWithL needle (c :: t) || containsL needle t

/-- JS `String.prototype.split(sep)` with a one-character separator: splits at
every occurrence, keeping empty segments. -/
def splitCharL (sep : Char) : List Char → List (List Char)
  | [] => [[]]
  | c :: rest =>
    if c = sep then [] :: splitCharL sep rest
    else
      match splitCharL sep rest with
      | [] => [[c]]
      | t :: ts => (c :: t) :: ts

/-- JS `filter.split(' ')`. -/
def splitSpacesL : List Char → List (List Char) := splitCharL ' '

/-- JS `term.split(':')`. -/
def splitColonL : List Char → List (List Char) := splitCharL ':'

/-- Value of a decimal digit string (`parseInt(s, 10)` on all-digit input). -/
def digitsToNat (l : List Char) : Nat :=
  l.foldl (fun acc c => acc * 10 + (c.toNat - 48)) 0

example : splitSpacesL "a  b".data = ["a".data, [], "b".data] := by decide
example : splitColonL "a:b:c".data = ["a".data, "b".data, "c".data] := by decide
example : containsL "rep".data "write-report".data = true := by decide
example : containsL "".data "x".data = true := by decide
example : containsL "xy".data "x".data = false := by decide
example : digitsToNat "0931".data = 931 := by decide

/-! ## The webview date parser and overdue check -/

/-- The `D{1,2}/M{1,2}/YYYY` pattern match from the webview `parseDate`:
exactly three all-digit slash-separated groups of widths 1-2, 1-2 and 4. -/
def slashMatch (s : List Char) : Option (Nat × Nat × Nat) :=
  match splitCharL '/' s with
  | [a, b, c] =>
    if 1 ≤ a.length && a.length ≤ 2 && a.all Char.isDigit &&
       1 ≤ b.length && b.length ≤ 2 && b.all Char.isDigit &&
       c.length = 4 && c.all Char.isDigit then
      some (digitsToNat a, digitsToNat b, digitsToNat c)
    else none
  | _ => none

/-- The webview `parseDate` applied to a non-null stringified value, returning
the instant (ms) of the parsed date, or `none` for an invalid date.  The
`new Date(string)` fallback for non-`D/M/YYYY` strings is the abstracted
ECMAScript parser `jsParse`.  JS `new Date(y, m, d)` maps a two-digit year to
1900 + y. -/
def parseDateS (jsParse : String → Option Int) (s : String) : Option Int :=
  match slashMatch s.data with
  | some (day, month, year) =>
    let y : Int := if year ≤ 99 then 1900 + (year : Int) else (year : Int)
    some (dateCode (mkDate y ((month : Int) - 1) (day : Int)))
  | none => jsParse s

/-- The `checkOverdue` helper: the task has a `due` metadata entry that is not
null/undefined, parses to a valid date, and is strictly before `now`. -/
def checkOverdue (now : Int) (jsParse : String → Option Int) (task : WTask) : Bool :=
  match metaLookup task.metadata "due" with
  | none => false
  | some v =>
    match v with
    | MetaValue.null => false
    | v =>
      match parseDateS jsParse (metaToString v) with
      | none => false
      | some d => decide (d < now)

example : parseDateS (fun _ => none) "09/03/2025"
    = some (dateCode { year := 2025, month := 2, day := 9 }) := by decide
example : parseDateS (fun _ => none) "9/3/2025"
    = some (dateCode { year := 2025, month := 2, day := 9 }) := by decide
example : parseDateS (fun _ => none) "2025-03-09" = none := by decide

/-! ## The query engine (`filterTask`) -/

/-- The fixed filterable property names. -/
def filterProperties : List (List Char) :=
  ["description".data, "assigned".data, "tag".data, "relation".data,
   "subtask".data, "comment".data]

/-- The lowercased custom-field names (`Object.keys(customFieldMap)`). -/
def customFieldNames (customFields : List CustomField) : List (List Char) :=
  customFields.map (fun cf => lowerL cf.name.data)

/-- Lookup `customFieldMap[p]`: `Object.fromEntries` keeps the last entry for a
duplicated lowercased name, so lookup takes the last matching schema entry. -/
def customFieldMapGet (customFields : List CustomField) (p : List Char) : Option CustomField :=
  customFields.reverse.find? (fun cf => lowerL cf.name.data = p)

/-- The bare-token boolean-custom-field guard:
`customFieldNames.includes(p) && customFieldMap[p].type === 'boolean'`. -/
def isBoolCustom (customFields : List CustomField) (p : List Char) : Bool :=
  (customFieldNames customFields).contains p &&
    match customFieldMapGet customFields p with
    | some cf => cf.type = FieldType.boolean
    | none => false

/-- The bare-token fallback: the token is a case-insensitive substring of the
task's id or name. -/
def idNameMatch (task : WTask) (p : List Char) : Bool :=
  containsL p (lowerL task.id.data) || containsL p (lowerL task.name.data)

/-- The searchable string built for a `key:value` term (the `switch` on the
property name inside `filterTask`). -/
def propertyValue (task : WTask) (customFields : List CustomField) (key : List Char) : List Char :=
  if key = "description".data then
    (String.intercalate " " (task.description :: task.subTasks.map (fun st => st.text))).data
  else if key = "assigned".data then
    match metaLookup task.metadata "assigned" with
    | none => []
    | some MetaValue.null => []
    | some v => (metaToString v).data
  else if key = "tag".data then
    match metaLookup task.metadata "tags" with
    | some (MetaValue.strs l) => (String.intercalate " " l).data
    | _ => []
  else if key = "relation".data then
    (String.intercalate " " (task.relations.map (fun r => r.type ++ " " ++ r.task))).data
  else if key = "subtask".data then
    (String.intercalate " " (task.subTasks.map (fun st => st.text))).data
  else if key = "comment".data then
    (String.intercalate " " (task.comments.map (fun c => c.author ++ " " ++ c.text))).data
  else
    match customFieldMapGet customFields key with
    | some cf =>
      if cf.type ≠ FieldType.boolean then
        match metaLookup task.metadata cf.name with
        | some v => (metaToString v).data
        | none => []
      else []
    | none => []

/-- Whether one whitespace-delimited filter term matches a task, given the
already-split lowercased `parts` of the term: the body of the `forEach`
inside `filterTask` (a term "matches" when it does not set
`result = false`). -/
def termMatchParts (now : Int) (jsParse : String → Option Int) (task : WTask)
    (customFields : List CustomField) (parts : List (List Char)) : Bool :=
  if parts.length = 1 then
    let p := parts.headD []
    if p = "overdue".data then
      checkOverdue now jsParse task
    else if isBoolCustom customFields p then
      match customFieldMapGet customFields p with
      | some cf => decide (metaLookup task.metadata cf.name = some MetaValue.null)
      | none => false
    else
      idNameMatch task p
  else if parts.length = 2 &&
      (filterProperties.contains (parts.headD []) ||
       (customFieldNames customFields).contains (parts.headD [])) then
    containsL (parts.getD 1 []) (lowerL (propertyValue task customFields (parts.headD [])))
  else
    true

/-- One filter term: split on `:` , lowercase each part, and match. -/
def termMatch (now : Int) (jsParse : String → Option Int) (task : WTask)
    (customFields : List CustomField) (f : List Char) : Bool :=
  termMatchParts now jsParse task customFields ((splitColonL f).map lowerL)

/-- The engine entry `filterTask(task, taskFilter, customFields)`: the filter string is split
on spaces and the `forEach` accumulator `result` is only ever lowered, i.e.
each term is conjoined. -/
def filterTask (now : Int) (jsParse : String → Option Int) (task : WTask)
    (taskFilter : String) (customFields : List CustomField) : Bool :=
  (splitSpacesL taskFilter.data).foldl
    (fun result f => result && termMatch now jsParse task customFields f) true

/-- A concrete task used in sanity examples below. -/
def egTask : WTask :=
  { id := "write-report", name := "Write report", description := "",
    subTasks := [], relations := [], comments := [],
    metadata := [("due", MetaValue.str "09/03/2025"), ("tags", MetaValue.strs ["urgent"])] }

example : filterTask (dateCode { year := 2025, month := 2, day := 10 }) (fun _ => none)
    egTask "tag:urgent overdue" [] = true := by decide
example : filterTask (dateCode { year := 2025, month := 2, day := 1 }) (fun _ => none)
    egTask "tag:urgent overdue" [] = false := by decide
example : filterTask 0 (fun _ => none)
    { egTask with metadata := [("Done", MetaValue.null)] }
    "done" [{ name := "Done", type := FieldType.boolean }] = true := by decide
example : filterTask 0 (fun _ => none)
    { egTask with metadata := [] }
    "done" [{ name := "Done", type := FieldType.boolean }] = false := by decide
example : filterTask 0 (fun _ => none)
    { egTask with metadata := [("Done", MetaValue.bool true)] }
    "done" [{ name := "Done", type := FieldType.boolean }] = false := by decide
example : filterTask 0 (fun _ => none) egTask "foo:bar" [] = true := by decide
example : filterTask 0 (fun _ => none) egTask "tag:a:b" [] = true := by decide

/-! ## Selection (`handleTaskSelect`) -/

/-- The `lastClicked` anchor: task id, column, and position within the
column's filtered view at click time. -/
structure Anchor where
  taskId : String
  columnName : String
  position : Nat
deriving DecidableEq, Repr

/-- Modifier state of the mouse event. -/
structure MouseEv where
  shiftKey : Bool
  ctrlKey : Bool
  metaKey : Bool
deriving DecidableEq, Repr

/-- JS `Set.prototype.add` on an insertion-ordered duplicate-free list. -/
def setAdd (s : List String) (x : String) : List String :=
  if s.contains x then s else s ++ [x]

/-- JS `Set.prototype.delete`. -/
def setDelete (s : List String) (x : String) : List String :=
  s.filter (fun y => y ≠ x)

/-- JS `Set` toggle used by the ctrl/meta-click branch. -/
def setToggle (s : List String) (x : String) : List String :=
  if s.contains x then setDelete s x else setAdd s x

/-- The board's column map: column name to the ordered task list. -/
abbrev ColumnMap : Type := List (String × List WTask)

/-- Column read `state.columns[columnName] ?? []`. -/
def columnTasks (columns : ColumnMap) (columnName : String) : List WTask :=
  ((columns.find? (fun p => p.1 = columnName)).map (fun p => p.2)).getD []

/-- The board-view state read by `handleTaskSelect`. -/
structure BoardView where
  columns : ColumnMap
  taskFilter : String
  customFields : List CustomField

/-- Gesture handler `handleTaskSelect(taskId, columnName, position, e)`: shift-click with an
anchor in the same column adds every task between the anchor position and the
clicked position (in the column's filtered view) to the selection; otherwise
the clicked task is toggled.  Returns the new selection set and the new
`lastClicked` anchor. -/
def handleTaskSelect (now : Int) (jsParse : String → Option Int) (view : BoardView)
    (prev : List String) (lastClicked : Option Anchor)
    (taskId : String) (columnName : String) (position : Nat) (e : MouseEv) :
    List String × Anchor :=
  let next :=
    match lastClicked with
    | some a =>
      if e.shiftKey && a.columnName = columnName then
        let tasks := (columnTasks view.columns columnName).filter
          (fun task => filterTask now jsParse task view.taskFilter view.customFields)
        let startIdx := min a.position position
        let endIdx := max a.position position
        (List.range' startIdx (endIdx + 1 - startIdx)).foldl
          (fun s i =>
            match tasks.get? i with
            | some t => setAdd s t.id
            | none => s)
          prev
      else setToggle prev taskId
    | none => setToggle prev taskId
  (next, { taskId := taskId, columnName := columnName, position := position })

/-! ## Multi-drag (`onDragEnd`, multi-selection branch) -/

/-- The `kanbn.bulkMove` message posted to the extension host.  It carries the
selected task ids and the target column only; there is no position field. -/
structure BulkMoveMsg where
  taskIds : List String
  columnName : String
deriving DecidableEq, Repr

/-- Replace a column's task list, adding the column if absent
(`newColumns[targetColumn] = targetTasks`). -/
def setColumn (columns : ColumnMap) (name : String) (ts : List WTask) : ColumnMap :=
  if columns.any (fun p => p.1 = name) then
    columns.map (fun p => if p.1 = name then (name, ts) else p)
  else columns ++ [(name, ts)]

/-- The multi-drag branch of `onDragEnd` (taken when the dragged card belongs
to a selection of size > 1 and the drop destination is valid): every selected
task is extracted from its column preserving relative order, the block is
spliced at `min(destination.index, target length)` in the target column for
the local optimistic view, and a `kanbn.bulkMove` message is posted carrying
the selection's iteration order and the target column. -/
def onDragEndMulti (columns : ColumnMap) (selectedTaskIds : List String)
    (targetColumn : String) (dropIndex : Nat) : ColumnMap × BulkMoveMsg :=
  let selectedTasks := columns.foldl
    (fun acc p => acc ++ p.2.filter (fun t => selectedTaskIds.contains t.id)) []
  let newColumns := columns.map
    (fun p => (p.1, p.2.filter (fun t => !selectedTaskIds.contains t.id)))
  let targetTasks := columnTasks newColumns targetColumn
  let insertIdx := min dropIndex targetTasks.length
  let spliced := targetTasks.take insertIdx ++ selectedTasks ++ targetTasks.drop insertIdx
  (setColumn newColumns targetColumn spliced,
   { taskIds := selectedTaskIds, columnName := targetColumn })

/-! ## Extension host: board index and recurrence scheduler -/

/-- A task recurrence rule (`task.metadata.recurrence`). -/
structure Rec where
  type : String
  interval : Option Nat
  dayOfMonth : Option Int
deriving DecidableEq, Repr

/-- Extension-side task metadata, the fields read by `handleRecurrence`
(dates are hydrated `Date` values here). -/
structure ExtMeta where
  due : Option CalDate
  tags : Option (List String)
  recurrence : Option Rec
  priority : Option Int
  assigned : Option String
  attachments : Option (List String)
deriving DecidableEq, Repr

/-- A tracked task as loaded by the extension host. -/
structure ExtTask where
  id : String
  name : String
  description : String
  metadata : ExtMeta
deriving DecidableEq, Repr

/-- Board options read by the panel (`index.options`, with the `?? []`
defaults folded in). -/
structure IndexOptions where
  completedColumns : List String
  hiddenColumns : List String
deriving DecidableEq, Repr

/-- The board index: ordered columns (name to ordered task ids) and options. -/
structure Index where
  name : String
  columns : List (String × List String)
  options : IndexOptions
deriving DecidableEq, Repr

/-- Metadata of the successor task built by `handleRecurrence`. -/
structure NewMeta where
  created : CalDate
  tags : List String
  recurrence : Rec
  due : CalDate
  priority : Option Int
  assigned : Option String
  attachments : Option (List String)
deriving DecidableEq, Repr

/-- The successor task passed to `createTask`: same name/description, fresh
metadata, empty subtasks/relations/comments. -/
structure NewTask where
  name : String
  description : String
  metadata : NewMeta
  subTasks : List SubTask
  relations : List Relation
  comments : List Comment
deriving DecidableEq, Repr

/-- The next-due computation of `handleRecurrence`: `rec.interval || 1` folds
0/absent to 1; daily/weekly use `setDate`, monthly uses `setMonth` then, when
a day-of-month is configured, clamps it against the month the (already
normalised) date landed in; annually uses `setFullYear`.  An unknown rule type
leaves the base date unchanged (the `switch` has no default). -/
def nextDueDate (rec : Rec) (base : CalDate) : CalDate :=
  let iv : Int := match rec.interval with
    | some n => if n = 0 then 1 else (n : Int)
    | none => 1
  if rec.type = "daily" then
    mkDate base.year base.month (base.day + iv)
  else if rec.type = "weekly" then
    mkDate base.year base.month (base.day + iv * 7)
  else if rec.type = "monthly" then
    let d1 := mkDate base.year (base.month + iv) base.day
    match rec.dayOfMonth with
    | some dom =>
      let lastDay := (mkDate d1.year (d1.month + 1) 0).day
      mkDate d1.year d1.month (min dom lastDay)
    | none => d1
  else if rec.type = "annually" then
    mkDate (base.year + iv) base.month base.day
  else base

/-- The scheduler `handleRecurrence(taskId, targetColumn)` given the fetched index and task
list: returns the successor task and the column it is created in, or `none`
when the move is not into a completed column, the task is unknown, or it has
no recurrence rule. -/
def handleRecurrence (index : Index) (allTasks : List ExtTask) (now : CalDate)
    (taskId : String) (targetColumn : String) : Option (NewTask × String) :=
  let completedColumns := index.options.completedColumns
  if !completedColumns.contains targetColumn then none
  else
    match allTasks.find? (fun t => t.id = taskId) with
    | none => none
    | some task =>
      match task.metadata.recurrence with
      | none => none
      | some rec =>
        let baseDate := task.metadata.due.getD now
        let nextDue := nextDueDate rec baseDate
        let newTask : NewTask :=
          { name := task.name,
            description := task.description,
            metadata :=
              { created := now,
                tags := task.metadata.tags.getD [],
                recurrence := rec,
                due := nextDue,
                priority := task.metadata.priority,
                assigned := task.metadata.assigned,
                attachments := task.metadata.attachments },
            subTasks := [], relations := [], comments := [] }
        let hiddenColumns := index.options.hiddenColumns
        let firstOpenColumn :=
          ((index.columns.map (fun p => p.1)).find?
            (fun col => !completedColumns.contains col && !hiddenColumns.contains col)).getD
            ((index.columns.map (fun p => p.1)).headD "")
        some (newTask, firstOpenColumn)

/-! ## Extension host: the refresh sequencer (`update`) -/

/-- The snapshot posted to the webview on an accepted refresh (the other
message fields are projections of `index`). -/
structure Snapshot where
  index : Index
  tasks : List ExtTask
deriving DecidableEq, Repr

/-- Panel state owned by `KanbnBoardPanel`: the epoch counter, the suppress
flag, the snapshot currently displayed by the webview, and the error messages
surfaced so far (`showErrorMessage` calls, in order). -/
structure PanelState where
  updateSeq : Nat
  suppressUpdates : Bool
  displayed : Option Snapshot
  errors : List String
deriving DecidableEq, Repr

/-- The continuation of one `update()` call, suspended at its store-adapter
await points. -/
inductive UpdateCont where
  | awaitIndex (seq : Nat) : UpdateCont
  | awaitTasks (seq : Nat) (index : Index) : UpdateCont
  | finished : UpdateCont
deriving DecidableEq, Repr

/-- Entry of `update()`: a suppressed call returns immediately; otherwise the
epoch is incremented, captured, and the get-index fetch is issued. -/
def startUpdate (st : PanelState) : PanelState × UpdateCont :=
  if st.suppressUpdates then (st, UpdateCont.finished)
  else ({ st with updateSeq := st.updateSeq + 1 },
        UpdateCont.awaitIndex (st.updateSeq + 1))

/-- Resumption of `update()` when the `getIndex` fetch completes: an error is
surfaced and the call returns; a stale epoch discards the result; otherwise
the task fetch is issued. -/
def resumeIndex (st : PanelState) (c : UpdateCont) (res : Except String Index) :
    PanelState × UpdateCont :=
  match c with
  | UpdateCont.awaitIndex seq =>
    match res with
    | Except.error e => ({ st with errors := st.errors ++ [e] }, UpdateCont.finished)
    | Except.ok index =>
      if seq ≠ st.updateSeq then (st, UpdateCont.finished)
      else (st, UpdateCont.awaitTasks seq index)
  | c => (st, c)

/-- Resumption of `update()` when the load-and-hydrate of all tasks
completes: an error is surfaced and the call returns; a stale epoch discards
the result; otherwise the snapshot is posted to the webview. -/
def resumeTasks (st : PanelState) (c : UpdateCont) (res : Except String (List ExtTask)) :
    PanelState × UpdateCont :=
  match c with
  | UpdateCont.awaitTasks seq index =>
    match res with
    | Except.error e => ({ st with errors := st.errors ++ [e] }, UpdateCont.finished)
    | Except.ok tasks =>
      if seq ≠ st.updateSeq then (st, UpdateCont.finished)
      else ({ st with displayed := some { index := index, tasks := tasks } },
            UpdateCont.finished)
  | c => (st, c)

/-- The overlapping-refresh scenario: refresh A is issued, then refresh B is
issued before A resolves; B's fetches then resolve to completion, and only
afterwards do A's resolve. -/
def overlapScenario (st : PanelState) (iA : Index) (tA : List ExtTask)
    (iB : Index) (tB : List ExtTask) : PanelState :=
  let rA := startUpdate st
  let rB := startUpdate rA.1
  let rB1 := resumeIndex rB.1 rB.2 (Except.ok iB)
  let rB2 := resumeTasks rB1.1 rB1.2 (Except.ok tB)
  let rA1 := resumeIndex rB2.1 rA.2 (Except.ok iA)
  let rA2 := resumeTasks rA1.1 rA1.2 (Except.ok tA)
  rA2.1

/-! ## Extension host: bulk move / bulk archive handlers -/

/-- A call issued against the task store by a bulk handler. -/
inductive StoreCall where
  | move (taskId : String) (columnName : String) (position : Int) : StoreCall
  | archive (taskId : String) : StoreCall
deriving DecidableEq, Repr

/-- The `for` loop of the `kanbn.bulkMove` handler.  Each iteration issues
`moveTask(taskId, targetColumn, -1)` and then runs `handleRecurrence`; the
store outcomes of the two steps are `moveB` and `recurB` (the recurrence
routine's own store reads and create may also throw).  The whole loop sits
inside one `try`, so the first thrown error terminates it: the failing call
is issued but no later iteration runs.  Returns the issued move calls in
order and the first error, if any. -/
def bulkMoveLoop (moveB : String → Except String Unit) (recurB : String → Except String Unit)
    (targetColumn : String) : List String → List StoreCall × Option String
  | [] => ([], none)
  | taskId :: rest =>
    let c := StoreCall.move taskId targetColumn (-1)
    match moveB taskId with
    | Except.error e => ([c], some e)
    | Except.ok _ =>
      match recurB taskId with
      | Except.error e => ([c], some e)
      | Except.ok _ =>
        let r := bulkMoveLoop moveB recurB targetColumn rest
        (c :: r.1, r.2)

/-- The `for` loop of the `kanbn.bulkArchive` handler (one `archiveTask` per
id, same single-`try` abort-on-first-error shape). -/
def bulkArchiveLoop (archB : String → Except String Unit) :
    List String → List StoreCall × Option String
  | [] => ([], none)
  | taskId :: rest =>
    let c := StoreCall.archive taskId
    match archB taskId with
    | Except.error e => ([c], some e)
    | Except.ok _ =>
      let r := bulkArchiveLoop archB rest
      (c :: r.1, r.2)

/-- Result of running a bulk handler: the panel state afterwards, the store
calls issued, and the continuation of the closing `update()` call. -/
structure BulkRun where
  state : PanelState
  calls : List StoreCall
  cont : UpdateCont
deriving DecidableEq, Repr

/-- The `kanbn.bulkMove` message handler: set the suppress flag, run the loop
under `try`, surface the caught error (if any) once, restore the flag in
`finally`, then issue the single closing `update()`. -/
def bulkMoveHandler (st : PanelState) (moveB : String → Except String Unit)
    (recurB : String → Except String Unit) (targetColumn : String)
    (taskIds : List String) : BulkRun :=
  let st1 := { st with suppressUpdates := true }
  let r := bulkMoveLoop moveB recurB targetColumn taskIds
  let st2 := match r.2 with
    | some e => { st1 with errors := st1.errors ++ [e] }
    | none => st1
  let st3 := { st2 with suppressUpdates := false }
  let u := startUpdate st3
  { state := u.1, calls := r.1, cont := u.2 }

/-- The `kanbn.bulkArchive` message handler, same bracket shape. -/
def bulkArchiveHandler (st : PanelState) (archB : String → Except String Unit)
    (taskIds : List String) : BulkRun :=
  let st1 := { st with suppressUpdates := true }
  let r := bulkArchiveLoop archB taskIds
  let st2 := match r.2 with
    | some e => { st1 with errors := st1.errors ++ [e] }
    | none => st1
  let st3 := { st2 with suppressUpdates := false }
  let u := startUpdate st3
  { state := u.1, calls := r.1, cont := u.2 }

/-- Sanity: the Jan-31 monthly recurrence evaluation used by claim C2. -/
def c2Index : Index :=
  { name := "board",
    columns := [("Backlog", ["t1"]), ("Done", [])],
    options := { completedColumns := ["Done"], hiddenColumns := [] } }

def c2Task : ExtTask :=
  { id := "t1", name := "Pay rent", description := "",
    metadata :=
      { due := some { year := 2025, month := 0, day := 31 },
        tags := some [],
        recurrence := some { type := "monthly", interval := some 1, dayOfMonth := some 31 },
        priority := none, assigned := none, attachments := none } }

def c2Now : CalDate := { year := 2025, month := 1, day := 1 }

example :
    (handleRecurrence c2Index [c2Task] c2Now "t1" "Done").map
      (fun r => r.1.metadata.due)
    = some { year := 2025, month := 2, day := 31 } := by decide

/-! ## Helper lemmas -/

/-- The split `splitCharL` never returns the empty list. -/
theorem splitCharL_ne_nil (sep : Char) (l : List Char) : splitCharL sep l ≠ [] := by
  cases l with
  | nil => simp [splitCharL]
  | cons c t =>
    by_cases h : c = sep
    · simp [splitCharL, h]
    · simp only [splitCharL, if_neg h]
      cases hs : splitCharL sep t with
      | nil => simp
      | cons a b => simp

/-- Splitting on a one-character separator distributes over a separator
occurrence. -/
theorem splitCharL_append (sep : Char) (l1 l2 : List Char) :
    splitCharL sep (l1 ++ sep :: l2) = splitCharL sep l1 ++ splitCharL sep l2 := by
  induction l1 with
  | nil => simp [splitCharL]
  | cons c t ih =>
    by_cases h : c = sep
    · subst h
      simp [splitCharL, ih]
    · cases h2 : splitCharL sep t with
      | nil => exact absurd h2 (splitCharL_ne_nil sep t)
      | cons a b =>
        simp only [List.cons_append, splitCharL, if_neg h, List.append_eq, ih, h2]

/-- A list without the separator splits into itself alone. -/
theorem splitCharL_no_sep (sep : Char) (l : List Char) (h : sep ∉ l) :
    splitCharL sep l = [l] := by
  induction l with
  | nil => simp [splitCharL]
  | cons c t ih =>
    have hc : c ≠ sep := fun he => h (he ▸ List.mem_cons_self c t)
    have ht : sep ∉ t := fun hm => h (List.mem_cons_of_mem c hm)
    simp only [splitCharL, if_neg hc, ih ht]

/-- The `result &&= termMatch` accumulator is the conjunction over terms. -/
theorem foldl_and_eq_all {α : Type} (g : α → Bool) (l : List α) (b : Bool) :
    l.foldl (fun result f => result && g f) b = (b && l.all g) := by
  induction l generalizing b with
  | nil => simp
  | cons x t ih => simp [List.all_cons, ih, Bool.and_assoc]

/-- The engine `filterTask` is the conjunction of `termMatch` over the space-split
terms. -/
theorem filterTask_eq_all (now : Int) (jsParse : String → Option Int) (task : WTask)
    (taskFilter : String) (customFields : List CustomField) :
    filterTask now jsParse task taskFilter customFields
      = (splitSpacesL taskFilter.data).all (termMatch now jsParse task customFields) := by
  simp [filterTask, foldl_and_eq_all]

/-- Membership after a JS `Set.add`. -/
theorem mem_setAdd (s : List String) (x y : String) :
    y ∈ setAdd s x ↔ y ∈ s ∨ y = x := by
  by_cases h : s.contains x
  · have hx : x ∈ s := by simpa using h
    simp only [setAdd, if_pos h]
    constructor
    · intro hm
      exact Or.inl hm
    · intro hm
      cases hm with
      | inl hm => exact hm
      | inr hm => exact hm ▸ hx
  · have hx : x ∉ s := by simpa using h
    simp [setAdd, if_neg h, hx, List.mem_append]

/-- A successful `customFieldMap` lookup means the lowercased name list
contains the key. -/
theorem contains_of_customFieldMapGet (customFields : List CustomField)
    (p : List Char) (cf : CustomField)
    (h : customFieldMapGet customFields p = some cf) :
    (customFieldNames customFields).contains p = true := by
  have hmem : cf ∈ customFields.reverse ∧ (lowerL cf.name.data = p) := by
    have h1 := List.find?_some h
    have h2 := List.mem_of_find?_eq_some h
    constructor
    · exact h2
    · simpa using h1
  have hp : p ∈ customFieldNames customFields := by
    simp only [customFieldNames, List.mem_map]
    exact ⟨cf, List.mem_reverse.mp hmem.1, hmem.2⟩
  simpa using hp

/-! ## Claim theorems -/

/-- C5: filtering is AND-composition over whitespace-separated terms: for
every task, custom-field schema and filter strings `f1`, `f2`,
`matches(t, f1 ++ " " ++ f2, s)` equals
`matches(t, f1, s) && matches(t, f2, s)`. -/
theorem filterTask_and_composition (now : Int) (jsParse : String → Option Int)
    (task : WTask) (customFields : List CustomField) (f1 f2 : String) :
    filterTask now jsParse task (f1 ++ " " ++ f2) customFields
      = (filterTask now jsParse task f1 customFields
          && filterTask now jsParse task f2 customFields) := by
  rw [filterTask_eq_all, filterTask_eq_all, filterTask_eq_all]
  have hdata : (f1 ++ " " ++ f2).data = f1.data ++ ' ' :: f2.data := by
    rw [String.data_append, String.data_append, List.append_assoc]
    rfl
  rw [hdata]
  unfold splitSpacesL
  rw [splitCharL_append, List.all_append]

/-- C2: the recurrence scheduler is claimed to clamp a monthly rule's
configured day-of-month against the month reached by adding the interval, so
that dayOfMonth = 31 from a due date of 31/01/2025 yields 28/02/2025.  The
code instead lets JS `setMonth` overflow 31 January + 1 month to 3 March and
then clamps against March, deriving a successor due 31/03/2025 — contradicting
the code's own clamp comment and the spec: a code bug. -/
theorem handleRecurrence_monthly_overflow_bug :
    (handleRecurrence c2Index [c2Task] c2Now "t1" "Done").map
        (fun r => r.1.metadata.due)
      = some { year := 2025, month := 2, day := 31 } ∧
    ({ year := 2025, month := 2, day := 31 } : CalDate)
      ≠ { year := 2025, month := 1, day := 28 } := by
  exact ⟨by decide, by decide⟩

/-- C8: a refresh whose index fetch or task hydration fails surfaces exactly
that error message to the caller and leaves the displayed board state
completely unchanged — no snapshot is applied and the board is not cleared. -/
theorem update_fetch_error_preserves_display (st : PanelState) (seq : Nat)
    (index : Index) (e : String) :
    (resumeIndex st (UpdateCont.awaitIndex seq) (Except.error e)).1.displayed
        = st.displayed ∧
    (resumeIndex st (UpdateCont.awaitIndex seq) (Except.error e)).1.errors
        = st.errors ++ [e] ∧
    (resumeIndex st (UpdateCont.awaitIndex seq) (Except.error e)).2
        = UpdateCont.finished ∧
    (resumeTasks st (UpdateCont.awaitTasks seq index) (Except.error e)).1.displayed
        = st.displayed ∧
    (resumeTasks st (UpdateCont.awaitTasks seq index) (Except.error e)).1.errors
        = st.errors ++ [e] ∧
    (resumeTasks st (UpdateCont.awaitTasks seq index) (Except.error e)).2
        = UpdateCont.finished := by
  simp [resumeIndex, resumeTasks]

/-- C3: overlapping refreshes are epoch-gated, last-issued-wins.  Issuing
refresh A then refresh B before A resolves, then resolving A only after B has
fully completed, leaves the displayed state at B's snapshot; and in general a
completion whose captured epoch differs from the current counter changes
nothing. -/
theorem update_last_issued_wins (st : PanelState) (iA iB : Index)
    (tA tB : List ExtTask) (h : st.suppressUpdates = false) :
    (overlapScenario st iA tA iB tB).displayed = some { index := iB, tasks := tB } ∧
    (∀ st2 : PanelState, ∀ seq : Nat, ∀ index : Index, ∀ tasks : List ExtTask,
      seq ≠ st2.updateSeq →
      resumeTasks st2 (UpdateCont.awaitTasks seq index) (Except.ok tasks)
        = (st2, UpdateCont.finished)) := by
  constructor
  · have h1 : st.updateSeq + 1 ≠ st.updateSeq + 1 + 1 := by omega
    simp [overlapScenario, startUpdate, resumeIndex, resumeTasks, h, h1]
  · intro st2 seq index tasks hne
    simp [resumeTasks, hne]

/-- Concrete witness for C3's hypotheses. -/
def c3St : PanelState :=
  { updateSeq := 5, suppressUpdates := false, displayed := none, errors := [] }

def c3IdxA : Index :=
  { name := "A", columns := [], options := { completedColumns := [], hiddenColumns := [] } }

def c3IdxB : Index :=
  { name := "B", columns := [], options := { completedColumns := [], hiddenColumns := [] } }

/-- Witness for C3: instantiating the overlap scenario at a concrete panel
state shows the displayed snapshot is B's. -/
theorem update_last_issued_wins_witness :
    (overlapScenario c3St c3IdxA [] c3IdxB []).displayed
      = some { index := c3IdxB, tasks := [] } :=
  (update_last_issued_wins c3St c3IdxA c3IdxB [] [] rfl).1

/-- C9: both bulk handlers always end with the suppress flag restored to
false (also on the error path, via `finally`) and issue exactly one closing
refresh after the batch: the epoch counter advances by exactly one and the
closing `update()` is in flight with that epoch. -/
theorem bulk_handlers_restore_suppress_and_refresh_once (st : PanelState)
    (moveB recurB archB : String → Except String Unit)
    (targetColumn : String) (taskIds : List String) :
    ((bulkMoveHandler st moveB recurB targetColumn taskIds).state.suppressUpdates = false ∧
     (bulkMoveHandler st moveB recurB targetColumn taskIds).state.updateSeq
        = st.updateSeq + 1 ∧
     (bulkMoveHandler st moveB recurB targetColumn taskIds).cont
        = UpdateCont.awaitIndex (st.updateSeq + 1)) ∧
    ((bulkArchiveHandler st archB taskIds).state.suppressUpdates = false ∧
     (bulkArchiveHandler st archB taskIds).state.updateSeq = st.updateSeq + 1 ∧
     (bulkArchiveHandler st archB taskIds).cont
        = UpdateCont.awaitIndex (st.updateSeq + 1)) := by
  constructor
  · cases hr : (bulkMoveLoop moveB recurB targetColumn taskIds).2 with
    | none => simp [bulkMoveHandler, startUpdate, hr]
    | some e => simp [bulkMoveHandler, startUpdate, hr]
  · cases hr : (bulkArchiveLoop archB taskIds).2 with
    | none => simp [bulkArchiveHandler, startUpdate, hr]
    | some e => simp [bulkArchiveHandler, startUpdate, hr]

/-- The bulk-move loop stops at the first failing task: every id before it is
moved (and succeeds), the failing id's move call is issued, nothing after it
is attempted, and the loop's error is that first failure. -/
theorem bulkMoveLoop_abort (moveB recurB : String → Except String Unit)
    (targetColumn : String) (pre : List String) (bad : String)
    (post : List String) (msg : String)
    (hpre : ∀ id ∈ pre, moveB id = Except.ok () ∧ recurB id = Except.ok ())
    (hbad : moveB bad = Except.error msg) :
    bulkMoveLoop moveB recurB targetColumn (pre ++ bad :: post)
      = (pre.map (fun id => StoreCall.move id targetColumn (-1))
          ++ [StoreCall.move bad targetColumn (-1)], some msg) := by
  induction pre with
  | nil => simp [bulkMoveLoop, hbad]
  | cons id rest ih =>
    have h1 := hpre id (List.mem_cons_self id rest)
    have h2 : ∀ i ∈ rest, moveB i = Except.ok () ∧ recurB i = Except.ok () :=
      fun i hi => hpre i (List.mem_cons_of_mem id hi)
    simp [bulkMoveLoop, h1.1, h1.2, ih h2]

/-- The bulk-archive loop stops at the first failing task, same shape. -/
theorem bulkArchiveLoop_abort (archB : String → Except String Unit)
    (pre : List String) (bad : String) (post : List String) (msg : String)
    (hpre : ∀ id ∈ pre, archB id = Except.ok ())
    (hbad : archB bad = Except.error msg) :
    bulkArchiveLoop archB (pre ++ bad :: post)
      = (pre.map StoreCall.archive ++ [StoreCall.archive bad], some msg) := by
  induction pre with
  | nil => simp [bulkArchiveLoop, hbad]
  | cons id rest ih =>
    have h1 := hpre id (List.mem_cons_self id rest)
    have h2 : ∀ i ∈ rest, archB i = Except.ok () :=
      fun i hi => hpre i (List.mem_cons_of_mem id hi)
    simp [bulkArchiveLoop, h1, ih h2]

/-- Store behaviour for the C1 counterexample: moving `t2` fails, everything
else succeeds. -/
def c1MoveB : String → Except String Unit :=
  fun taskId => if taskId = "t2" then Except.error "move failed" else Except.ok ()

def c1RecurB : String → Except String Unit := fun _ => Except.ok ()

def c1ArchB : String → Except String Unit :=
  fun taskId => if taskId = "t2" then Except.error "archive failed" else Except.ok ()

def c1St : PanelState :=
  { updateSeq := 0, suppressUpdates := false, displayed := none, errors := [] }

/-- C1 counterexample: in a bulk move (and bulk archive) of `[t1, t2, t3]`
where the per-task store call for `t2` fails, the remaining id `t3` is NOT
attempted — no store call for it is ever issued — refuting the claim that
every remaining id in the batch is still attempted.  (The single surfaced
error is as claimed.) -/
theorem bulk_continue_after_error_counterexample :
    (bulkMoveHandler c1St c1MoveB c1RecurB "Done" ["t1", "t2", "t3"]).calls
      = [StoreCall.move "t1" "Done" (-1), StoreCall.move "t2" "Done" (-1)] ∧
    StoreCall.move "t3" "Done" (-1)
      ∉ (bulkMoveHandler c1St c1MoveB c1RecurB "Done" ["t1", "t2", "t3"]).calls ∧
    (bulkMoveHandler c1St c1MoveB c1RecurB "Done" ["t1", "t2", "t3"]).state.errors
      = ["move failed"] ∧
    (bulkArchiveHandler c1St c1ArchB ["t1", "t2", "t3"]).calls
      = [StoreCall.archive "t1", StoreCall.archive "t2"] ∧
    StoreCall.archive "t3"
      ∉ (bulkArchiveHandler c1St c1ArchB ["t1", "t2", "t3"]).calls := by
  exact ⟨by decide, by decide, by decide, by decide, by decide⟩

/-- C1 amended: if one per-task store call fails mid-sequence during a bulk
move (or bulk archive), the ids already processed keep their effects (their
calls were issued; there is no rollback), the failing call is issued, the
remaining ids in the batch are NOT attempted (the single `try` around the
loop aborts it), and exactly one error — the first encountered — is surfaced
at the end of the batch. -/
theorem bulk_abort_on_first_error (st : PanelState)
    (moveB recurB archB : String → Except String Unit) (targetColumn : String)
    (pre : List String) (bad : String) (post : List String) (msgM msgA : String)
    (hpre : ∀ id ∈ pre, moveB id = Except.ok () ∧ recurB id = Except.ok ())
    (hbad : moveB bad = Except.error msgM)
    (hpreA : ∀ id ∈ pre, archB id = Except.ok ())
    (hbadA : archB bad = Except.error msgA) :
    ((bulkMoveHandler st moveB recurB targetColumn (pre ++ bad :: post)).calls
       = pre.map (fun id => StoreCall.move id targetColumn (-1))
           ++ [StoreCall.move bad targetColumn (-1)] ∧
     (bulkMoveHandler st moveB recurB targetColumn (pre ++ bad :: post)).state.errors
       = st.errors ++ [msgM]) ∧
    ((bulkArchiveHandler st archB (pre ++ bad :: post)).calls
       = pre.map StoreCall.archive ++ [StoreCall.archive bad] ∧
     (bulkArchiveHandler st archB (pre ++ bad :: post)).state.errors
       = st.errors ++ [msgA]) := by
  have hm := bulkMoveLoop_abort moveB recurB targetColumn pre bad post msgM hpre hbad
  have ha := bulkArchiveLoop_abort archB pre bad post msgA hpreA hbadA
  constructor
  · constructor
    · simp [bulkMoveHandler, hm]
    · simp [bulkMoveHandler, hm, startUpdate]
  · constructor
    · simp [bulkArchiveHandler, ha]
    · simp [bulkArchiveHandler, ha, startUpdate]

/-- Witness for C1's amended theorem at a concrete batch `[t1, t2, t3]` with
`t2` failing. -/
theorem bulk_abort_on_first_error_witness :
    ((bulkMoveHandler c1St c1MoveB c1RecurB "Done" ["t1", "t2", "t3"]).calls
       = [StoreCall.move "t1" "Done" (-1), StoreCall.move "t2" "Done" (-1)] ∧
     (bulkMoveHandler c1St c1MoveB c1RecurB "Done" ["t1", "t2", "t3"]).state.errors
       = ["move failed"]) ∧
    ((bulkArchiveHandler c1St c1ArchB ["t1", "t2", "t3"]).calls
       = [StoreCall.archive "t1", StoreCall.archive "t2"] ∧
     (bulkArchiveHandler c1St c1ArchB ["t1", "t2", "t3"]).state.errors
       = ["archive failed"]) := by
  have h := bulk_abort_on_first_error c1St c1MoveB c1RecurB c1ArchB "Done"
    ["t1"] "t2" ["t3"] "move failed" "archive failed"
    (by intro id hid; fin_cases hid; exact ⟨rfl, rfl⟩)
    rfl
    (by intro id hid; fin_cases hid; exact rfl)
    rfl
  simpa using h

/-- C4 counterexample schema: a boolean custom field named `overdue`. -/
def c4Schema : List CustomField :=
  [{ name := "overdue", type := FieldType.boolean }]

/-- C4 counterexample task: the `overdue` field is present with a null value,
and the task has no due date. -/
def c4Task : WTask :=
  { id := "a", name := "a", description := "", subTasks := [], relations := [],
    comments := [], metadata := [("overdue", MetaValue.null)] }

/-- C4 counterexample: the bare token `overdue` names a boolean custom field
of the schema, and the field is present on the task's metadata with a null
value, so the claim requires a match — but the engine's `overdue` branch takes
precedence over the boolean-custom-field branch and reports no match (the
task has no due date). -/
theorem filterTask_boolean_custom_counterexample :
    metaLookup c4Task.metadata "overdue" = some MetaValue.null ∧
    c4Schema.contains { name := "overdue", type := FieldType.boolean } = true ∧
    filterTask 0 (fun _ => none) c4Task "overdue" c4Schema = false := by
  exact ⟨by decide, by decide, by decide⟩

/-- C4 amended: a bare filter token other than `overdue` (case-insensitively)
that names a boolean custom field — the schema entry the engine resolves for
it, i.e. the last entry with that case-folded name — matches the task if and
only if that field's name is present as a metadata key with a null/absent
stored value. -/
theorem filterTask_boolean_custom (now : Int) (jsParse : String → Option Int)
    (task : WTask) (customFields : List CustomField) (tok : String)
    (field : CustomField)
    (hspace : ' ' ∉ tok.data) (hcolon : ':' ∉ tok.data)
    (hov : lowerL tok.data ≠ "overdue".data)
    (hget : customFieldMapGet customFields (lowerL tok.data) = some field)
    (hbool : field.type = FieldType.boolean) :
    filterTask now jsParse task tok customFields
      = decide (metaLookup task.metadata field.name = some MetaValue.null) := by
  have hsplit : splitSpacesL tok.data = [tok.data] :=
    splitCharL_no_sep ' ' tok.data hspace
  have hcol : splitColonL tok.data = [tok.data] :=
    splitCharL_no_sep ':' tok.data hcolon
  have hcontains := contains_of_customFieldMapGet customFields (lowerL tok.data) field hget
  have hmem : lowerL tok.data ∈ customFieldNames customFields := by
    simpa using hcontains
  have hbc : isBoolCustom customFields (lowerL tok.data) = true := by
    simp [isBoolCustom, hmem, hget, hbool]
  rw [filterTask_eq_all, hsplit]
  simp only [List.all_cons, List.all_nil, Bool.and_true]
  rw [termMatch, hcol]
  simp [termMatchParts, hov, hbc, hget]

/-- Witness schema and task for C4's amended theorem. -/
def c4wSchema : List CustomField :=
  [{ name := "Blocked", type := FieldType.boolean }]

def c4wTask : WTask :=
  { id := "t", name := "t", description := "", subTasks := [], relations := [],
    comments := [], metadata := [("Blocked", MetaValue.null)] }

/-- Witness for C4's amended theorem: the token `blocked` against a boolean
custom field `Blocked` present with a null value matches. -/
theorem filterTask_boolean_custom_witness :
    filterTask 0 (fun _ => none) c4wTask "blocked" c4wSchema = true := by
  have h := filterTask_boolean_custom 0 (fun _ => none) c4wTask c4wSchema
    "blocked" { name := "Blocked", type := FieldType.boolean }
    (by decide) (by decide) (by decide) (by decide) rfl
  rw [h]
  decide

/-- Witness task for C7. -/
def c7Task : WTask :=
  { id := "w", name := "w", description := "", subTasks := [], relations := [],
    comments := [], metadata := [] }

/-- C7: a `key:value` term whose key is neither one of the six fixed property
names nor a custom-field name, or a malformed term with more than one colon,
matches vacuously true — it never filters a task out. -/
theorem termMatchParts_not_known_key (now : Int) (jsParse : String → Option Int)
    (task : WTask) (customFields : List CustomField) (parts : List (List Char))
    (h1 : parts.length ≠ 1)
    (h2 : parts.length = 2 →
      filterProperties.contains (parts.headD []) = false ∧
      (customFieldNames customFields).contains (parts.headD []) = false) :
    termMatchParts now jsParse task customFields parts = true := by
  rw [termMatchParts]
  rw [if_neg h1]
  by_cases hl : parts.length = 2
  · obtain ⟨h6, hcf⟩ := h2 hl
    have h6m : parts.headD [] ∉ filterProperties := by simpa using h6
    have hcfm : parts.headD [] ∉ customFieldNames customFields := by simpa using hcf
    simp only [List.headD_eq_head?] at h6m hcfm
    simp
    exact Or.inl (Or.inr ⟨h6m, hcfm⟩)
  · simp
    exact Or.inl (Or.inl hl)

/-- C7 claim theorem (continued): stated on the raw term. -/
theorem termMatch_unknown_key_vacuous (now : Int) (jsParse : String → Option Int)
    (task : WTask) (customFields : List CustomField) (tok : List Char)
    (h : (((splitColonL tok).map lowerL).length = 2 ∧
          filterProperties.contains (((splitColonL tok).map lowerL).headD []) = false ∧
          (customFieldNames customFields).contains
            (((splitColonL tok).map lowerL).headD []) = false)
         ∨ 3 ≤ ((splitColonL tok).map lowerL).length) :
    termMatch now jsParse task customFields tok = true := by
  rw [termMatch]
  apply termMatchParts_not_known_key
  · cases h with
    | inl hc => omega
    | inr h3 => omega
  · intro hl
    cases h with
    | inl hc => exact ⟨hc.2.1, hc.2.2⟩
    | inr h3 => omega

/-- Witness for C7: the unknown-key term `foo:bar` filters nothing out. -/
theorem termMatch_unknown_key_vacuous_witness :
    termMatch 0 (fun _ => none) c7Task [] "foo:bar".data = true :=
  termMatch_unknown_key_vacuous 0 (fun _ => none) c7Task [] "foo:bar".data
    (Or.inl ⟨by decide, by decide, by decide⟩)

/-- C6: with the anchor on the second task of a column's filtered view
`[ta, tb, tc, td, te]` (position 1) and a shift-click on the fourth (position
3) in the same column, the selection becomes the prior selection together
with exactly the tasks at positions 1, 2 and 3 — nothing previously selected
is removed. -/
theorem handleTaskSelect_shift_range (now : Int) (jsParse : String → Option Int)
    (view : BoardView) (prev : List String) (ta tb tc td te : WTask)
    (col : String) (taskId : String) (e : MouseEv)
    (hfilter : (columnTasks view.columns col).filter
        (fun task => filterTask now jsParse task view.taskFilter view.customFields)
        = [ta, tb, tc, td, te])
    (hshift : e.shiftKey = true) :
    ∀ x, x ∈ (handleTaskSelect now jsParse view prev
        (some { taskId := tb.id, columnName := col, position := 1 })
        taskId col 3 e).1
      ↔ (x ∈ prev ∨ x = tb.id ∨ x = tc.id ∨ x = td.id) := by
  intro x
  have hsel : (handleTaskSelect now jsParse view prev
      (some { taskId := tb.id, columnName := col, position := 1 })
      taskId col 3 e).1
      = setAdd (setAdd (setAdd prev tb.id) tc.id) td.id := by
    simp only [handleTaskSelect, hshift, hfilter, Bool.true_and, decide_True,
      if_true, if_pos rfl]
    norm_num
    rfl
  rw [hsel, mem_setAdd, mem_setAdd, mem_setAdd]
  tauto

/-- Concrete tasks for the C6 witness. -/
def c6Mk (i : String) : WTask :=
  { id := i, name := i, description := "", subTasks := [], relations := [],
    comments := [], metadata := [] }

def c6View : BoardView :=
  { columns := [("Todo", [c6Mk "a", c6Mk "b", c6Mk "c", c6Mk "d", c6Mk "e"])],
    taskFilter := "", customFields := [] }

/-- Witness for C6: in the concrete column `[a, b, c, d, e]` with anchor `b`
(position 1) and shift-click at position 3, the resulting selection contains
`b`, `c`, `d` and the previously selected `z`, and not `a`. -/
theorem handleTaskSelect_shift_range_witness :
    ("b" ∈ (handleTaskSelect 0 (fun _ => none) c6View ["z"]
        (some { taskId := "b", columnName := "Todo", position := 1 })
        "d" "Todo" 3 { shiftKey := true, ctrlKey := false, metaKey := false }).1) ∧
    ("c" ∈ (handleTaskSelect 0 (fun _ => none) c6View ["z"]
        (some { taskId := "b", columnName := "Todo", position := 1 })
        "d" "Todo" 3 { shiftKey := true, ctrlKey := false, metaKey := false }).1) ∧
    ("d" ∈ (handleTaskSelect 0 (fun _ => none) c6View ["z"]
        (some { taskId := "b", columnName := "Todo", position := 1 })
        "d" "Todo" 3 { shiftKey := true, ctrlKey := false, metaKey := false }).1) ∧
    ("z" ∈ (handleTaskSelect 0 (fun _ => none) c6View ["z"]
        (some { taskId := "b", columnName := "Todo", position := 1 })
        "d" "Todo" 3 { shiftKey := true, ctrlKey := false, metaKey := false }).1) ∧
    ¬ ("a" ∈ (handleTaskSelect 0 (fun _ => none) c6View ["z"]
        (some { taskId := "b", columnName := "Todo", position := 1 })
        "d" "Todo" 3 { shiftKey := true, ctrlKey := false, metaKey := false }).1) := by
  have h := handleTaskSelect_shift_range 0 (fun _ => none) c6View ["z"]
    (c6Mk "a") (c6Mk "b") (c6Mk "c") (c6Mk "d") (c6Mk "e") "Todo" "d"
    { shiftKey := true, ctrlKey := false, metaKey := false }
    (by decide) rfl
  refine ⟨(h "b").mpr ?_, (h "c").mpr ?_, (h "d").mpr ?_, (h "z").mpr ?_, ?_⟩
  · exact Or.inr (Or.inl rfl)
  · exact Or.inr (Or.inr (Or.inl rfl))
  · exact Or.inr (Or.inr (Or.inr rfl))
  · exact Or.inl (by decide)
  · intro ha
    have := (h "a").mp ha
    simp [c6Mk] at this

/-- Every move call issued by the bulk-move loop targets the given column at
position -1. -/
theorem bulkMoveLoop_calls_shape (moveB recurB : String → Except String Unit)
    (targetColumn : String) (taskIds : List String) :
    ∀ call ∈ (bulkMoveLoop moveB recurB targetColumn taskIds).1,
      ∃ tid, call = StoreCall.move tid targetColumn (-1) := by
  induction taskIds with
  | nil => simp [bulkMoveLoop]
  | cons id rest ih =>
    intro call hc
    simp only [bulkMoveLoop] at hc
    cases hm : moveB id with
    | error e =>
      rw [hm] at hc
      simp at hc
      exact ⟨id, hc⟩
    | ok u =>
      cases hr : recurB id with
      | error e =>
        rw [hm, hr] at hc
        simp at hc
        exact ⟨id, hc⟩
      | ok u2 =>
        rw [hm, hr] at hc
        simp at hc
        cases hc with
        | inl h => exact ⟨id, h⟩
        | inr h => exact ih call h

/-- C10: the `kanbn.bulkMove` message posted by a drag-initiated multi-move
carries only the selected ids and the target column — it is identical for
every drop index at which the block was locally spliced — and every per-task
move call the handler then issues goes to the store with position -1 in the
target column; the locally shown drop position is never persisted. -/
theorem bulkMove_persists_position_minus_one (st : PanelState)
    (moveB recurB : String → Except String Unit) (columns : ColumnMap)
    (selectedTaskIds : List String) (targetColumn : String) (i j : Nat) :
    (onDragEndMulti columns selectedTaskIds targetColumn i).2
      = { taskIds := selectedTaskIds, columnName := targetColumn } ∧
    (onDragEndMulti columns selectedTaskIds targetColumn i).2
      = (onDragEndMulti columns selectedTaskIds targetColumn j).2 ∧
    (∀ tid c p, StoreCall.move tid c p ∈
        (bulkMoveHandler st moveB recurB
          (onDragEndMulti columns selectedTaskIds targetColumn i).2.columnName
          (onDragEndMulti columns selectedTaskIds targetColumn i).2.taskIds).calls →
      p = -1 ∧ c = targetColumn) := by
  refine ⟨rfl, rfl, ?_⟩
  intro tid c p hmem
  have hcalls : (bulkMoveHandler st moveB recurB
      (onDragEndMulti columns selectedTaskIds targetColumn i).2.columnName
      (onDragEndMulti columns selectedTaskIds targetColumn i).2.taskIds).calls
      = (bulkMoveLoop moveB recurB targetColumn selectedTaskIds).1 := rfl
  rw [hcalls] at hmem
  obtain ⟨tid2, heq⟩ := bulkMoveLoop_calls_shape moveB recurB targetColumn
    selectedTaskIds (StoreCall.move tid c p) hmem
  cases heq
  exact ⟨rfl, rfl⟩
